import Mathlib

/-
Shallow embedding of `trag.py`, the test262 conformance-testing driver
(commands: init, run, ingest, status, list, diff) and of the data it stores
in its SQLite database.  Each definition names the source function or the
source lines it embeds.  Machine-level details that the claims do not touch
(file naming, gzip, the SQLite connection object) are elided; the row-level
effect of every SQL statement the claims touch is modelled explicitly.
-/

namespace Trag

/-- Python exceptions that the embedded code paths can raise.  `typeError`
models `TypeError` (wrong-arity call), `calledProcessError` models
`subprocess.CalledProcessError` (a `check=True` subprocess exiting nonzero),
`versionSwitchError` models the script's own `VersionSwitchError`,
`jsonDecodeError` models `json.JSONDecodeError`, and `indexError` models
`IndexError` (indexing `[-1]` into an empty list). -/
inductive PyExc where
  | typeError
  | calledProcessError
  | versionSwitchError
  | jsonDecodeError
  | indexError
deriving DecidableEq, Repr

/-- An error classification `{category, message}` as it appears in a verdict
or in an ingested JSON record. -/
structure ErrorInfo where
  category : String
  message : String
deriving DecidableEq, Repr

/-- One ingestible run record, the decoded form of one `.jsonl` line:
`{"testcase": ..., "error": null | {category, message}, "use_strict": 0|1,
"version": ...}` (`trag.py` lines 380-406 read exactly these keys). -/
structure Record where
  testcase : String
  error : Option ErrorInfo
  use_strict : Bool
  version : String
deriving DecidableEq, Repr

/-- One row of the `runs` table (`trag.py` lines 364-370): columns
`testcase_sid`, `error_category`, `error_message_sid`, `use_strict`,
`version`.  The table has no uniqueness constraint. -/
structure RunRow where
  testcase_sid : Nat
  error_category : Option String
  error_message_sid : Option Nat
  use_strict : Bool
  version : String
deriving DecidableEq, Repr

/-- One row of the `groups` table (`trag.py` lines 360-363): `path_sid`
(unique) and `group_sid`, both referencing `strings`. -/
structure GroupRow where
  path_sid : Nat
  group_sid : Nat
deriving DecidableEq, Repr

/-- The database state: the `strings` interner table (the string with
`string_id = i` sits at index `i - 1`, matching the autoincrement primary
key starting at 1), the `groups` table, and the `runs` table. -/
structure DB where
  strings : List String
  groups : List GroupRow
  runs : List RunRow
deriving DecidableEq, Repr

/-- A database with all three tables empty (the state right after the
schema-creation script on a fresh file). -/
def emptyDB : DB := ⟨[], [], []⟩

/-- Embedding of the module-level `insert_string(db, s)` (`trag.py` lines
90-95): `insert or ignore` into `strings`, then `select string_id`.  Returns
the id together with the new table; the id of a present string is its
(1-based) position, a new string is appended and gets id `length + 1`. -/
def insert_string (strings : List String) (s : String) : Nat × List String :=
  if s ∈ strings then (strings.indexOf s + 1, strings)
  else (strings.length + 1, strings ++ [s])

/-- Embedding of the `--clear` branch of `ingest` (`trag.py` lines 373-378):
`delete from groups; delete from runs;` — both tables are emptied wholesale,
with no `where` clause; the `strings` table is untouched. -/
def clear_previous_runs (db : DB) : DB :=
  { db with groups := [], runs := [] }

/-- Embedding of the nested `insert_run(record)` of `ingest` (`trag.py`
lines 380-406) as Python actually executes it: its first statement is
`group_sid = insert_string(group)`, a one-argument call of the module-level
`insert_string(db, s)`, which needs two positional arguments — Python
raises `TypeError` before any SQL runs, for every record. -/
def insert_run (db : DB) (record : Record) : Except PyExc DB :=
  .error .typeError

/-- Embedding of the ingestion loop (`trag.py` lines 408-424): for each
input line, `json.loads` it (modelled by the `loads` parameter returning
`none` on `json.JSONDecodeError`); a decode error prints a skip notice and
continues (the `Nat` counts those skips); a decoded record goes to
`insert_run`, whose exception propagates and aborts the batch. -/
def ingest_lines (loads : String → Option Record) (db : DB) :
    List String → Except PyExc (DB × Nat)
  | [] => .ok (db, 0)
  | line :: rest =>
    match loads line with
    | none =>
      match ingest_lines loads db rest with
      | .ok (d, skips) => .ok (d, skips + 1)
      | .error e => .error e
    | some record =>
      match insert_run db record with
      | .error e => .error e
      | .ok db1 => ingest_lines loads db1 rest

/-- Embedding of the transactional behavior of the `ingest` command
(`trag.py` lines 352-426): the connection has `autocommit=False`, so the
optional `--clear` deletes run inside the open transaction — the source
prints that they "will be un-deleted if anything fails" — and the record
loop runs inside `with db:`, whose exit commits on success and rolls back
on an exception, which then propagates.  On success the result is the
loop's final state (including the clear); on an exception the rollback
restores the state from before the clear and the exception is returned. -/
def ingest_tx (loads : String → Option Record) (clear : Bool) (db : DB)
    (lines : List String) : DB × Option PyExc :=
  let db0 := if clear then clear_previous_runs db else db
  match ingest_lines loads db0 lines with
  | .ok (d, _) => (d, none)
  | .error e => (db, some e)

/-- The JSON value the engine prints on its last stdout line, as read by
`run_test`: an object whose `error` key is null or `{category, message}`
(wire contract of the subprocess protocol). -/
structure Outcome where
  error : Option ErrorInfo
deriving DecidableEq, Repr

/-- Observation of one finished (or killed) test subprocess as `run_test`
sees it: whether `asyncio.wait_for` timed out, the exit status, the lines
of captured stdout (`stdout.splitlines()`), and the utf-8 decoding of
stdout (`none` models `UnicodeDecodeError`). -/
structure ProcResult where
  timedOut : Bool
  returncode : Int
  stdoutLines : List String
  stdoutText : Option String
deriving DecidableEq, Repr

/-- The classified outcome of one test invocation after the negative-test
reconciliation and tagging (the dict `run_test` returns). -/
structure Verdict where
  error : Option ErrorInfo
  testcase : String
  version : String
  use_strict : Bool
deriving DecidableEq, Repr

/-- Embedding of the outcome-classification part of `Runner.run_test`
(`trag.py` lines 300-330): timeout beats everything and yields category
`timeout`; a nonzero exit yields category `runner failure` carrying the
decoded stdout (or the fixed placeholder on a decoding error); a zero exit
takes the last line of stdout — `stdout_lines[-1]`, raising `IndexError`
when stdout is empty — and hands it to `json.loads` (the `loads`
parameter; `none` models `json.JSONDecodeError`, which the source does not
catch). -/
def classify_output (loads : String → Option Outcome) (proc : ProcResult) :
    Except PyExc Outcome :=
  if proc.timedOut then
    .ok ⟨some ⟨"timeout", "runner timed out"⟩⟩
  else if proc.returncode ≠ 0 then
    .ok ⟨some ⟨"runner failure", proc.stdoutText.getD "<# encoding error #>"⟩⟩
  else
    match proc.stdoutLines.getLast? with
    | none => .error .indexError
    | some line =>
      match loads line with
      | none => .error .jsonDecodeError
      | some out => .ok out

/-- Embedding of the negative-test reconciliation of `Runner.run_test`
(`trag.py` lines 332-340): when the test is expected-negative, a clean
outcome becomes the `unexpected success` error and any error outcome is
cleared to null; otherwise the error passes through. -/
def apply_expected_negative (expected_negative : Bool) (err : Option ErrorInfo) :
    Option ErrorInfo :=
  if expected_negative then
    match err with
    | none => some ⟨"unexpected success", "error expected, but test run fine"⟩
    | some _ => none
  else err

/-- Embedding of `Runner.run_test` (`trag.py` lines 284-345): classify the
subprocess observation, apply the negative-test reconciliation, and tag the
verdict with the test-case path, engine version and strictness flag.  An
exception raised during classification propagates. -/
def run_test (loads : String → Option Outcome) (proc : ProcResult)
    (rel_path : String) (use_strict expected_negative : Bool) (vm_version : String) :
    Except PyExc Verdict :=
  match classify_output loads proc with
  | .error e => .error e
  | .ok out =>
    .ok { error := apply_expected_negative expected_negative out.error
        , testcase := rel_path
        , version := vm_version
        , use_strict := use_strict }

/-- What the `run` command records for one revision: either test results
were produced, or the `VersionSwitchError` handler wrote the
`vm build error` line for it (`trag.py` lines 173-179). -/
inductive RevOutcome where
  | tested
  | buildErrorRecorded
deriving DecidableEq, Repr

/-- Embedding of `switch_to_version` (`trag.py` lines 262-276), with the
outside world abstracted as two predicates saying whether `git checkout`
and `cargo build` exit zero for a revision.  A failing checkout raises
`CalledProcessError` (`check=True`, not wrapped) and leaves the working
directory unchanged; a successful checkout moves the working directory to
the revision, after which a failing build raises `VersionSwitchError` (the
`CalledProcessError` of the build is caught and re-raised as such).
Returns the raised exception (if any) and the working-directory state. -/
def switch_to_version (checkout_ok build_ok : String → Bool)
    (checkout : String) (vm_version : String) : Option PyExc × String :=
  if checkout_ok vm_version then
    if build_ok vm_version then (none, vm_version)
    else (some .versionSwitchError, vm_version)
  else (some .calledProcessError, checkout)

/-- Embedding of the per-revision loop of the `run` command (`trag.py`
lines 148-238) on the multi-revision path (`--commits` given, not a dry
run, no pre-existing output file): for each revision in order it calls
`switch_to_version`; a `VersionSwitchError` is caught, an error line is
written for the revision (`RevOutcome.buildErrorRecorded`) and the loop
continues; success runs the tests (`RevOutcome.tested`); any other
exception propagates, aborting the loop.  Returns the per-revision record
list, the final working-directory checkout and the escaping exception, if
any.  The source contains no step restoring the original checkout. -/
def process_commits (checkout_ok build_ok : String → Bool) :
    List String → String → List (String × RevOutcome) × String × Option PyExc
  | [], checkout => ([], checkout, none)
  | v :: rest, checkout =>
    let sw := switch_to_version checkout_ok build_ok checkout v
    match sw.1 with
    | none =>
      let p := process_commits checkout_ok build_ok rest sw.2
      ((v, .tested) :: p.1, p.2)
    | some .versionSwitchError =>
      let p := process_commits checkout_ok build_ok rest sw.2
      ((v, .buildErrorRecorded) :: p.1, p.2)
    | some e => ([], sw.2, some e)

/-- Embedding of the per-test-case submission logic of `run` (`trag.py`
lines 200-216): `submit_task(use_strict=False)` unless `onlyStrict` is in
the metadata flags, then `submit_task(use_strict=True)` unless `noStrict`
is; each submitted task carries the test-case path, the strictness mode and
the `negative in metadata` bit (line 209). -/
def submitted_tasks (rel_path : String) (negative : Bool) (flags : List String) :
    List (String × Bool × Bool) :=
  (if "onlyStrict" ∈ flags then [] else [(rel_path, false, negative)]) ++
  (if "noStrict" ∈ flags then [] else [(rel_path, true, negative)])

/-- Resolution of a `string_id` against the `strings` table (`string_id`
is the 1-based position, see `DB.strings`). -/
def lookup_string (strings : List String) (sid : Nat) : Option String :=
  if sid = 0 then none else strings[sid - 1]?

/-- One `runs` row is well formed when its `testcase_sid`, and its
`error_message_sid` when present, resolve in the `strings` table — true of
every row the ingestion statements can produce. -/
def wf_row (strings : List String) (row : RunRow) : Bool :=
  (lookup_string strings row.testcase_sid).isSome &&
    row.error_message_sid.all (fun m => (lookup_string strings m).isSome)

/-- A database is well formed when every `runs` row is. -/
def WF (db : DB) : Prop :=
  ∀ row ∈ db.runs, wf_row db.strings row = true

/-- The join condition of the first `diff` query (`trag.py` lines 542-554):
pairs of run rows agreeing on `testcase_sid` and `use_strict`, the first
from `version_a` with a null `error_message_sid` (a pass), the second from
`version_b` with a non-null one (a failure). -/
def diff_pairs (runs : List RunRow) (va vb : String) : List (RunRow × RunRow) :=
  (runs.product runs).filter fun p =>
    p.1.testcase_sid == p.2.testcase_sid && p.1.use_strict == p.2.use_strict &&
    p.1.version == va && p.2.version == vb &&
    p.1.error_message_sid.isNone && p.2.error_message_sid.isSome

/-- The projection of the first `diff` query: the test-case string joined
via `st.string_id = a.testcase_sid` and the failure message of the B side
joined via `se.string_id = b.error_message_sid`; a row whose sid does not
resolve does not join and is dropped. -/
def fail_entry (strings : List String) (p : RunRow × RunRow) :
    Option (String × String) :=
  match lookup_string strings p.1.testcase_sid, p.2.error_message_sid with
  | some tc, some msid => (lookup_string strings msid).map fun msg => (tc, msg)
  | _, _ => none

/-- Embedding of the `new_failures` result of the `diff` command (`trag.py`
lines 542-555): the joined (testcase, error_message) projections, ordered
by testcase (`order by testcase`). -/
def new_failures (db : DB) (va vb : String) : List (String × String) :=
  ((diff_pairs db.runs va vb).filterMap (fail_entry db.strings)).mergeSort
    fun x y => decide (x.1 ≤ y.1)

/-- The join condition of the second `diff` query (`trag.py` lines
565-576): same matching, with the A side failing (non-null
`error_message_sid`) and the B side passing (null). -/
def fix_pairs (runs : List RunRow) (va vb : String) : List (RunRow × RunRow) :=
  (runs.product runs).filter fun p =>
    p.1.testcase_sid == p.2.testcase_sid && p.1.use_strict == p.2.use_strict &&
    p.1.version == va && p.2.version == vb &&
    p.1.error_message_sid.isSome && p.2.error_message_sid.isNone

/-- Embedding of the `new_successes` result of the `diff` command
(`trag.py` lines 565-577): the joined testcase strings of the fixed pairs,
ordered by testcase; no message is selected. -/
def new_successes (db : DB) (va vb : String) : List String :=
  ((fix_pairs db.runs va vb).filterMap
      (fun p => lookup_string db.strings p.1.testcase_sid)).mergeSort
    fun x y => decide (x ≤ y)

/-- A concrete well-formed run record, for evaluating the embedding. -/
def sample_record : Record := ⟨"a/b.js", none, false, "aaaa"⟩

/-- A concrete stand-in for `json.loads` on ingestion input: the line
`"bad"` is invalid JSON (decode error), every other line decodes to
`sample_record`. -/
def sample_loads : String → Option Record :=
  fun line => if line = "bad" then none else some sample_record

/-- A `json.loads` stand-in that fails on every line, for exercising the
unparseable-last-line path. -/
def loads_fail : String → Option Outcome := fun _ => none

/-- A subprocess observation that exits zero after printing two lines of
stdout noise. -/
def proc_zero_noise : ProcResult := ⟨false, 0, ["noise", "garbage"], some "noise\ngarbage"⟩

/-- A checkout-step predicate that fails for every revision. -/
def checkout_all_fail : String → Bool := fun _ => false

/-- A build-step predicate that succeeds for every revision. -/
def build_all_ok : String → Bool := fun _ => true

/-- A checkout-step predicate that succeeds for every revision. -/
def checkout_all_ok : String → Bool := fun _ => true

/-- A database holding one run row of revision `aaaa` and one of revision
`bbbb`, for exercising the clear operation. -/
def other_revision_db : DB :=
  { strings := ["x", "x/y.js"]
  , groups := [⟨2, 1⟩]
  , runs := [⟨2, none, none, false, "aaaa"⟩, ⟨2, none, none, true, "bbbb"⟩] }

/-- A store (an input `.db` file) already holding two identical run rows
for the one (revision `aaaa`, test case `a/b.js`, non-strict) triple. -/
def dup_db : DB :=
  { strings := ["a", "a/b.js"]
  , groups := [⟨2, 1⟩]
  , runs := [⟨2, none, none, false, "aaaa"⟩, ⟨2, none, none, false, "aaaa"⟩] }

/-- A database where test `x/y.js` (strict mode) passes under revision
`r1` and fails under revision `r2` with message `TypeError: x`. -/
def diff_sample_db : DB :=
  { strings := ["x", "x/y.js", "TypeError: x"]
  , groups := [⟨2, 1⟩]
  , runs :=
    [ ⟨2, none, none, true, "r1"⟩
    , ⟨2, some "runtime error", some 3, true, "r2"⟩ ] }

/-- C1: on a batch of one invalid-JSON line followed by 100 well-formed
run-record lines, `ingest` does not insert the 100 records and report one
skip — it aborts with a `TypeError` on the first well-formed record,
because `insert_run` calls the two-parameter `insert_string(db, s)` with a
single argument.  The second conjunct shows the decode-skip logic itself is
present: a batch consisting only of the invalid line completes, reporting
one skip and inserting nothing. -/
theorem ingest_typeerror_aborts_batch :
    ingest_lines sample_loads emptyDB ("bad" :: List.replicate 100 "good") =
      .error .typeError ∧
    ingest_lines sample_loads emptyDB ["bad"] = .ok (emptyDB, 1) :=
  ⟨rfl, rfl⟩

/-- C9: a test case whose metadata flags contain `onlyStrict` is submitted
only in strict mode, one whose flags contain `noStrict` only in non-strict
mode, and one with neither flag exactly once in each of the two modes (the
non-strict submission first, as in the source). -/
theorem strictness_flag_selection (flags : List String) (rel : String) (neg : Bool) :
    ("onlyStrict" ∈ flags →
      ∀ t ∈ submitted_tasks rel neg flags, t.2.1 = true) ∧
    ("noStrict" ∈ flags →
      ∀ t ∈ submitted_tasks rel neg flags, t.2.1 = false) ∧
    ("onlyStrict" ∈ flags → "noStrict" ∉ flags →
      submitted_tasks rel neg flags = [(rel, true, neg)]) ∧
    ("noStrict" ∈ flags → "onlyStrict" ∉ flags →
      submitted_tasks rel neg flags = [(rel, false, neg)]) ∧
    ("onlyStrict" ∉ flags → "noStrict" ∉ flags →
      submitted_tasks rel neg flags = [(rel, false, neg), (rel, true, neg)]) := by
  unfold submitted_tasks
  by_cases h1 : "onlyStrict" ∈ flags <;>
    by_cases h2 : "noStrict" ∈ flags <;>
      simp [h1, h2]

/-- Witness for C9: the three flag configurations evaluated concretely. -/
theorem strictness_flag_selection_witness :
    submitted_tasks "t.js" false ["onlyStrict"] = [("t.js", true, false)] ∧
    submitted_tasks "t.js" false ["noStrict"] = [("t.js", false, false)] ∧
    submitted_tasks "t.js" false [] = [("t.js", false, false), ("t.js", true, false)] := by
  refine ⟨?_, ?_, ?_⟩
  · exact (strictness_flag_selection ["onlyStrict"] "t.js" false).2.2.1 (by decide) (by decide)
  · exact (strictness_flag_selection ["noStrict"] "t.js" false).2.2.2.1 (by decide) (by decide)
  · exact (strictness_flag_selection [] "t.js" false).2.2.2.2 (by decide) (by decide)

/-- C10: a test case whose metadata flags contain both `onlyStrict` and
`noStrict` is submitted in neither mode — `run` produces zero invocations
for it, hence no Verdict and no RunRecord. -/
theorem both_flags_submit_nothing (flags : List String) (rel : String) (neg : Bool)
    (h1 : "onlyStrict" ∈ flags) (h2 : "noStrict" ∈ flags) :
    submitted_tasks rel neg flags = [] := by
  simp [submitted_tasks, h1, h2]

/-- Witness for C10: a test case carrying both flags yields no tasks. -/
theorem both_flags_submit_nothing_witness :
    submitted_tasks "t.js" true ["onlyStrict", "noStrict"] = [] :=
  both_flags_submit_nothing ["onlyStrict", "noStrict"] "t.js" true (by decide) (by decide)

/-- C3 counterexample: a subprocess that exits zero but whose last stdout
line does not parse as JSON does not yield a Verdict of category
`runner failure` — `run_test` propagates the uncaught
`json.JSONDecodeError` instead (the source has no try/except around
`json.loads(stdout_lines[-1])`). -/
theorem parse_failure_raises_instead_of_verdict :
    run_test loads_fail proc_zero_noise "t.js" false false "aaaa" =
      .error .jsonDecodeError :=
  rfl

/-- C3 amended: for a subprocess that exits zero (and did not time out),
only the last line of captured stdout is consulted — any two stdout
captures with the same last line classify identically — and that line is
handed to `json.loads`; when it parses, the parsed outcome becomes the
verdict (after negative-test reconciliation), and when it does not parse,
`run_test` raises the decode error rather than producing a verdict. -/
theorem last_line_parsed_or_exception (loads : String → Option Outcome)
    (proc : ProcResult) (rel vm : String) (us en : Bool) (line : String)
    (h1 : proc.timedOut = false) (h2 : proc.returncode = 0)
    (h3 : proc.stdoutLines.getLast? = some line) :
    (∀ lines2 : List String, lines2.getLast? = proc.stdoutLines.getLast? →
      run_test loads { proc with stdoutLines := lines2 } rel us en vm =
        run_test loads proc rel us en vm) ∧
    (loads line = none →
      run_test loads proc rel us en vm = .error .jsonDecodeError) ∧
    (∀ out, loads line = some out →
      run_test loads proc rel us en vm =
        .ok ⟨apply_expected_negative en out.error, rel, vm, us⟩) := by
  refine ⟨?_, ?_, ?_⟩
  · intro lines2 hsame
    simp [run_test, classify_output, h1, h2, hsame]
  · intro hnone
    simp [run_test, classify_output, h1, h2, h3, hnone]
  · intro out hsome
    simp [run_test, classify_output, h1, h2, h3, hsome]

/-- Witness for the C3 amended theorem: a zero-exit process whose last
line is unparseable raises, and adding stdout noise before a parseable
last line does not change the verdict. -/
theorem last_line_parsed_or_exception_witness :
    run_test loads_fail proc_zero_noise "w.js" false false "bbbb" =
      .error .jsonDecodeError :=
  (last_line_parsed_or_exception loads_fail proc_zero_noise "w.js" "bbbb" false false
    "garbage" rfl rfl rfl).2.1 rfl

/-- C4: for every negative (expected-failure) test whose classification
produced an outcome — including `timeout` and `runner failure` outcomes —
the final verdict inverts it: a clean outcome becomes the error
`{category: unexpected success, message: error expected, but test run
fine}`, and any error outcome becomes a pass (error null). -/
theorem negative_inversion_after_classification (loads : String → Option Outcome)
    (proc : ProcResult) (rel vm : String) (us : Bool) (out : Outcome)
    (h : classify_output loads proc = .ok out) :
    run_test loads proc rel us true vm =
      .ok { error :=
              match out.error with
              | none => some ⟨"unexpected success", "error expected, but test run fine"⟩
              | some _ => none
          , testcase := rel
          , version := vm
          , use_strict := us } := by
  cases herr : out.error <;>
    simp [run_test, h, apply_expected_negative, herr]

/-- Witness for C4: a timed-out negative test ends with a null error, and
a clean-exit negative test ends with the `unexpected success` error. -/
theorem negative_inversion_after_classification_witness :
    run_test loads_fail ⟨true, 0, [], some ""⟩ "t.js" false true "aaaa" =
      .ok ⟨none, "t.js", "aaaa", false⟩ ∧
    run_test (fun _ => some ⟨none⟩) ⟨false, 0, ["{}"], some "{}"⟩ "t.js" true true "aaaa" =
      .ok ⟨some ⟨"unexpected success", "error expected, but test run fine"⟩,
           "t.js", "aaaa", true⟩ := by
  constructor
  · exact negative_inversion_after_classification loads_fail ⟨true, 0, [], some ""⟩
      "t.js" "aaaa" false ⟨some ⟨"timeout", "runner timed out"⟩⟩ rfl
  · exact negative_inversion_after_classification (fun _ => some ⟨none⟩)
      ⟨false, 0, ["{}"], some "{}"⟩ "t.js" "aaaa" true ⟨none⟩ rfl

/-- C2 counterexample: when the git checkout step of the first revision
exits nonzero, the failure is not classified as `VersionSwitchError` and
is not recorded — the uncaught `CalledProcessError` aborts the whole run
before the second revision is ever processed. -/
theorem checkout_failure_aborts_run :
    process_commits checkout_all_fail build_all_ok ["aaaa", "bbbb"] "orig" =
      ([], "orig", some .calledProcessError) :=
  rfl

/-- C2 amended: only the build step is wrapped — for every revision whose
checkout succeeds, a nonzero build is classified as the revision-scoped
`VersionSwitchError`, recorded as a `vm build error` line, and testing
continues with the next revision; when every checkout succeeds the
multi-revision run is never aborted, every revision being processed and
recorded in order. -/
theorem build_failure_recorded_and_run_continues
    (checkout_ok build_ok : String → Bool) (commits : List String) (cur : String)
    (h : ∀ v ∈ commits, checkout_ok v = true) :
    (process_commits checkout_ok build_ok commits cur).1 =
      commits.map (fun v =>
        (v, if build_ok v then RevOutcome.tested else RevOutcome.buildErrorRecorded)) ∧
    (process_commits checkout_ok build_ok commits cur).2.2 = none := by
  induction commits generalizing cur with
  | nil => simp [process_commits]
  | cons v rest ih =>
    have hv : checkout_ok v = true := h v (List.mem_cons_self v rest)
    have hrest : ∀ w ∈ rest, checkout_ok w = true :=
      fun w hw => h w (List.mem_cons_of_mem v hw)
    cases hb : build_ok v <;>
      simpa [process_commits, switch_to_version, hv, hb] using ih v hrest

/-- Witness for the C2 amended theorem: with every checkout succeeding,
the build of the first revision failing and of the second succeeding, the
first revision is recorded as a build error, the second is tested, and no
exception escapes. -/
theorem build_failure_recorded_and_run_continues_witness :
    (process_commits (fun _ => true) (fun v => v ≠ "aaaa") ["aaaa", "bbbb"] "orig").1 =
      [("aaaa", RevOutcome.buildErrorRecorded), ("bbbb", RevOutcome.tested)] ∧
    (process_commits (fun _ => true) (fun v => v ≠ "aaaa") ["aaaa", "bbbb"] "orig").2.2 =
      none := by
  have h := build_failure_recorded_and_run_continues (fun _ => true)
    (fun v => v ≠ "aaaa") ["aaaa", "bbbb"] "orig" (by decide)
  exact ⟨h.1.trans (by decide), h.2⟩

/-- C8 counterexample: after the `run` command processes its revision list
— here a single revision `abcd` whose checkout and build both succeed, so
the loop exits normally — the tested repository is left checked out at
`abcd`, not restored to its original state `orig`; no restoration step
exists on any exit path. -/
theorem run_leaves_last_checkout :
    (process_commits checkout_all_ok build_all_ok ["abcd"] "orig").2.1 = "abcd" ∧
    "abcd" ≠ "orig" :=
  ⟨rfl, by decide⟩

/-- C8 amended: the `run` command never restores the original checkout —
when every checkout succeeds (builds may fail), the working directory ends
at the last revision of the list, or stays at its starting state only when
the list is empty. -/
theorem final_checkout_is_last_revision
    (checkout_ok build_ok : String → Bool) (commits : List String) (cur : String)
    (h : ∀ v ∈ commits, checkout_ok v = true) :
    (process_commits checkout_ok build_ok commits cur).2.1 = commits.getLastD cur := by
  induction commits generalizing cur with
  | nil => simp [process_commits]
  | cons v rest ih =>
    have hv : checkout_ok v = true := h v (List.mem_cons_self v rest)
    have hrest : ∀ w ∈ rest, checkout_ok w = true :=
      fun w hw => h w (List.mem_cons_of_mem v hw)
    have hstep : (v :: rest).getLastD cur = rest.getLastD v := by
      cases rest <;> simp [List.getLastD]
    rw [hstep]
    cases hb : build_ok v <;>
      simpa [process_commits, switch_to_version, hv, hb] using ih v hrest

/-- Witness for the C8 amended theorem: a two-revision run whose second
build fails still ends checked out at the second revision. -/
theorem final_checkout_is_last_revision_witness :
    (process_commits (fun _ => true) (fun v => v ≠ "bbbb") ["aaaa", "bbbb"] "orig").2.1 =
      "bbbb" := by
  have h := final_checkout_is_last_revision (fun _ => true) (fun v => v ≠ "bbbb")
    ["aaaa", "bbbb"] "orig" (by decide)
  exact h.trans (by decide)

/-- C5 counterexample: the pre-re-test clear (`--clear`) run before
re-testing revision `aaaa` does not leave the records of the other
revision `bbbb` unchanged — it deletes them too, the `delete from runs`
having no `where version = ?` clause. -/
theorem clear_deletes_other_revisions :
    (clear_previous_runs other_revision_db).runs.filter
        (fun row => row.version == "bbbb") = [] ∧
    other_revision_db.runs.filter (fun row => row.version == "bbbb") ≠ [] :=
  ⟨rfl, by decide⟩

/-- A batch in which no line decodes is fully skipped: the loop succeeds,
reports one skip per line, and the store is untouched. -/
theorem ingest_lines_all_skip (loads : String → Option Record) (db : DB)
    {lines : List String} (h : ∀ l ∈ lines, loads l = none) :
    ingest_lines loads db lines = .ok (db, lines.length) := by
  induction lines with
  | nil => rfl
  | cons l rest ih =>
    have hl : loads l = none := h l (List.mem_cons_self l rest)
    have hr : ∀ x ∈ rest, loads x = none :=
      fun x hx => h x (List.mem_cons_of_mem l hx)
    simp [ingest_lines, hl, ih hr]

/-- A batch in which some line decodes to a record aborts with the
`TypeError` of `insert_run` (the `insert_string` arity slip). -/
theorem ingest_lines_hits_record (loads : String → Option Record) (db : DB)
    {lines : List String} (h : ∃ l ∈ lines, loads l ≠ none) :
    ingest_lines loads db lines = .error .typeError := by
  induction lines with
  | nil =>
    obtain ⟨l, hl, _⟩ := h
    cases hl
  | cons l rest ih =>
    cases hl : loads l with
    | some r => simp [ingest_lines, hl, insert_run]
    | none =>
      have hrest : ∃ x ∈ rest, loads x ≠ none := by
        obtain ⟨x, hx, hxn⟩ := h
        rcases List.mem_cons.mp hx with rfl | hx'
        · exact absurd hl hxn
        · exact ⟨x, hx', hxn⟩
      simp [ingest_lines, hl, ih hrest]

/-- C5 amended: the pre-re-test clear deletes all RunRecords of every
revision and the whole group mapping, not only the revision being
re-tested, so no previously stored revision remains queryable once it
commits; and the subsequent ingestion of the new records never succeeds on
the literal code — the first line that decodes to a record raises the
`TypeError` of `insert_run` and the transaction rollback undoes the clear
as well, so the clear persists exactly when no ingested line decodes. -/
theorem clear_global_and_reingest_aborts (db : DB)
    (loads : String → Option Record) (lines : List String) :
    (clear_previous_runs db).runs = [] ∧
    (clear_previous_runs db).groups = [] ∧
    (clear_previous_runs db).strings = db.strings ∧
    (∀ rv, (clear_previous_runs db).runs.filter
      (fun row => row.version == rv) = []) ∧
    ((∃ l ∈ lines, loads l ≠ none) →
      ingest_tx loads true db lines = (db, some .typeError)) ∧
    ((∀ l ∈ lines, loads l = none) →
      ingest_tx loads true db lines = (clear_previous_runs db, none)) := by
  refine ⟨rfl, rfl, rfl, fun rv => rfl, ?_, ?_⟩
  · intro h
    simp [ingest_tx, ingest_lines_hits_record loads (clear_previous_runs db) h]
  · intro h
    simp [ingest_tx, ingest_lines_all_skip loads (clear_previous_runs db) h]

/-- Witness for the C5 amended theorem: clearing before re-ingesting one
well-formed record line ends in the TypeError with the store rolled back
to its pre-clear state, while clearing with only a malformed line commits
the (global) clear. -/
theorem clear_global_and_reingest_aborts_witness :
    ingest_tx sample_loads true other_revision_db ["good"] =
      (other_revision_db, some .typeError) ∧
    ingest_tx sample_loads true other_revision_db ["bad"] =
      (clear_previous_runs other_revision_db, none) := by
  constructor
  · exact (clear_global_and_reingest_aborts other_revision_db sample_loads
      ["good"]).2.2.2.2.1 ⟨"good", by decide, by decide⟩
  · exact (clear_global_and_reingest_aborts other_revision_db sample_loads
      ["bad"]).2.2.2.2.2 (by decide)

/-- C6 counterexample: on a store (an input `.db` file) that already holds
two identical rows for the (revision `aaaa`, test case `a/b.js`,
non-strict) triple, ingesting the same one-record sequence twice does not
leave at most one RunRecord per triple — both rows are still there,
because ingestion neither deduplicates nor even inserts: each batch
aborts with the `TypeError` of `insert_run` and is rolled back. -/
theorem double_ingest_keeps_duplicates :
    ingest_tx sample_loads false dup_db ["good"] = (dup_db, some .typeError) ∧
    (ingest_tx sample_loads false
        (ingest_tx sample_loads false dup_db ["good"]).1 ["good"]).1.runs.countP
      (fun row => row.version == "aaaa" && row.testcase_sid == 2 &&
        row.use_strict == false) = 2 :=
  ⟨rfl, by decide⟩

/-- C6 amended: ingestion on the literal code never modifies the store at
all — a batch containing any line that decodes to a record aborts with the
`TypeError` of `insert_run` and rolls back, and a batch with none is all
skips — so re-ingesting a sequence is a no-op (and pass-rate counts are
unchanged) only because nothing is ever inserted; no
at-most-one-RunRecord-per-triple invariant is established or enforced. -/
theorem ingest_never_modifies_store (loads : String → Option Record)
    (db : DB) (lines : List String) :
    (ingest_tx loads false db lines).1 = db ∧
    ((∃ l ∈ lines, loads l ≠ none) →
      ingest_tx loads false db lines = (db, some .typeError)) := by
  constructor
  · by_cases h : ∀ l ∈ lines, loads l = none
    · simp [ingest_tx, ingest_lines_all_skip loads db h]
    · push_neg at h
      simp [ingest_tx, ingest_lines_hits_record loads db h]
  · intro h
    simp [ingest_tx, ingest_lines_hits_record loads db h]

/-- Witness for the C6 amended theorem: ingesting one well-formed record
line into the two-revision store changes nothing and raises. -/
theorem ingest_never_modifies_store_witness :
    (ingest_tx sample_loads false other_revision_db ["good"]).1 =
      other_revision_db ∧
    ingest_tx sample_loads false other_revision_db ["good"] =
      (other_revision_db, some .typeError) := by
  have h := ingest_never_modifies_store sample_loads other_revision_db ["good"]
  exact ⟨h.1, h.2 ⟨"good", by decide, by decide⟩⟩

/-- Membership in the pass-then-fail join. -/
theorem mem_diff_pairs {runs : List RunRow} {va vb : String} {a b : RunRow} :
    (a, b) ∈ diff_pairs runs va vb ↔
      a ∈ runs ∧ b ∈ runs ∧ a.testcase_sid = b.testcase_sid ∧
      a.use_strict = b.use_strict ∧ a.version = va ∧ b.version = vb ∧
      a.error_message_sid = none ∧ b.error_message_sid ≠ none := by
  simp [diff_pairs, List.mem_filter, List.pair_mem_product,
    Bool.and_eq_true, Option.isNone_iff_eq_none, Option.isSome_iff_ne_none,
    and_assoc]

/-- Membership in the fail-then-pass join. -/
theorem mem_fix_pairs {runs : List RunRow} {va vb : String} {a b : RunRow} :
    (a, b) ∈ fix_pairs runs va vb ↔
      a ∈ runs ∧ b ∈ runs ∧ a.testcase_sid = b.testcase_sid ∧
      a.use_strict = b.use_strict ∧ a.version = va ∧ b.version = vb ∧
      a.error_message_sid ≠ none ∧ b.error_message_sid = none := by
  simp [fix_pairs, List.mem_filter, List.pair_mem_product,
    Bool.and_eq_true, Option.isNone_iff_eq_none, Option.isSome_iff_ne_none,
    and_assoc]

/-- The projection of a joined pair succeeds exactly when both string ids
resolve, yielding the testcase string and the failing side's message. -/
theorem fail_entry_eq_some {strings : List String} {p : RunRow × RunRow}
    {tc msg : String} :
    fail_entry strings p = some (tc, msg) ↔
      lookup_string strings p.1.testcase_sid = some tc ∧
      ∃ msid, p.2.error_message_sid = some msid ∧
        lookup_string strings msid = some msg := by
  cases h1 : lookup_string strings p.1.testcase_sid with
  | none => cases h2 : p.2.error_message_sid <;> simp [fail_entry, h1, h2]
  | some tc0 =>
    cases h2 : p.2.error_message_sid with
    | none => simp [fail_entry, h1, h2]
    | some msid =>
      simp only [fail_entry, h1, h2, Option.map_eq_some', Option.some.injEq,
        Prod.mk.injEq]
      constructor
      · rintro ⟨m, hm, rfl, rfl⟩
        exact ⟨rfl, msid, rfl, hm⟩
      · rintro ⟨rfl, m, hme, hm⟩
        cases hme
        exact ⟨msg, hm, rfl, rfl⟩

/-- Membership characterization of the `new_failures` list. -/
theorem mem_new_failures {db : DB} {va vb tc msg : String} :
    (tc, msg) ∈ new_failures db va vb ↔
      ∃ a b, a ∈ db.runs ∧ b ∈ db.runs ∧ a.testcase_sid = b.testcase_sid ∧
        a.use_strict = b.use_strict ∧ a.version = va ∧ b.version = vb ∧
        a.error_message_sid = none ∧
        lookup_string db.strings a.testcase_sid = some tc ∧
        ∃ msid, b.error_message_sid = some msid ∧
          lookup_string db.strings msid = some msg := by
  unfold new_failures
  rw [List.mem_mergeSort, List.mem_filterMap]
  constructor
  · rintro ⟨⟨x, y⟩, hp, he⟩
    obtain ⟨ha, hb, h3, h4, h5, h6, h7, _⟩ := mem_diff_pairs.mp hp
    obtain ⟨htc, msid, hmsid, hmsg⟩ := fail_entry_eq_some.mp he
    exact ⟨x, y, ha, hb, h3, h4, h5, h6, h7, htc, msid, hmsid, hmsg⟩
  · rintro ⟨a, b, ha, hb, h3, h4, h5, h6, h7, htc, msid, hmsid, hmsg⟩
    refine ⟨(a, b), mem_diff_pairs.mpr ⟨ha, hb, h3, h4, h5, h6, h7, ?_⟩,
      fail_entry_eq_some.mpr ⟨htc, msid, hmsid, hmsg⟩⟩
    rw [hmsid]
    exact Option.some_ne_none msid

/-- Membership characterization of the `new_successes` list. -/
theorem mem_new_successes {db : DB} {va vb tc : String} :
    tc ∈ new_successes db va vb ↔
      ∃ a b, a ∈ db.runs ∧ b ∈ db.runs ∧ a.testcase_sid = b.testcase_sid ∧
        a.use_strict = b.use_strict ∧ a.version = va ∧ b.version = vb ∧
        a.error_message_sid ≠ none ∧ b.error_message_sid = none ∧
        lookup_string db.strings a.testcase_sid = some tc := by
  unfold new_successes
  rw [List.mem_mergeSort, List.mem_filterMap]
  constructor
  · rintro ⟨⟨x, y⟩, hp, he⟩
    obtain ⟨ha, hb, h3, h4, h5, h6, h7, h8⟩ := mem_fix_pairs.mp hp
    exact ⟨x, y, ha, hb, h3, h4, h5, h6, h7, h8, he⟩
  · rintro ⟨a, b, ha, hb, h3, h4, h5, h6, h7, h8, htc⟩
    exact ⟨(a, b), mem_fix_pairs.mpr ⟨ha, hb, h3, h4, h5, h6, h7, h8⟩, htc⟩

/-- The `new_failures` list is sorted by testcase. -/
theorem sorted_new_failures (db : DB) (va vb : String) :
    List.Pairwise (fun x y : String × String => x.1 ≤ y.1)
      (new_failures db va vb) := by
  have h := @List.sorted_mergeSort (String × String)
    (fun x y => decide (x.1 ≤ y.1))
    (fun a b c hab hbc => by
      simp only [decide_eq_true_eq] at *
      exact le_trans hab hbc)
    (fun a b => by
      rcases le_total a.1 b.1 with h | h <;> simp [h])
    ((diff_pairs db.runs va vb).filterMap (fail_entry db.strings))
  exact h.imp (fun hd => by simpa using hd)

/-- The `new_successes` list is sorted by testcase. -/
theorem sorted_new_successes (db : DB) (va vb : String) :
    List.Pairwise (fun x y : String => x ≤ y) (new_successes db va vb) := by
  have h := @List.sorted_mergeSort String
    (fun x y => decide (x ≤ y))
    (fun a b c hab hbc => by
      simp only [decide_eq_true_eq] at *
      exact le_trans hab hbc)
    (fun a b => by
      rcases le_total a b with h | h <;> simp [h])
    ((fix_pairs db.runs va vb).filterMap
      (fun p => lookup_string db.strings p.1.testcase_sid))
  exact h.imp (fun hd => by simpa using hd)

/-- A well-formed row's message sid resolves. -/
theorem wf_row_message {strings : List String} {row : RunRow} {msid : Nat}
    (h : wf_row strings row = true) (hm : row.error_message_sid = some msid) :
    ∃ s, lookup_string strings msid = some s := by
  simp only [wf_row, hm, Bool.and_eq_true, Option.all_some,
    Option.isSome_iff_exists] at h
  exact h.2

/-- In a well-formed database the testcases of `new_failures db va vb` are
exactly the entries of `new_successes db vb va` — the two `diff` queries
swap under swapping the revisions, up to the attached message. -/
theorem swap_failures_fixes (db : DB) (va vb : String) (hwf : WF db)
    (tc : String) :
    tc ∈ (new_failures db va vb).map Prod.fst ↔ tc ∈ new_successes db vb va := by
  rw [List.mem_map]
  constructor
  · rintro ⟨⟨tc', msg⟩, hmem, rfl⟩
    obtain ⟨a, b, ha, hb, h3, h4, h5, h6, h7, htc, msid, hmsid, hmsg⟩ :=
      mem_new_failures.mp hmem
    refine mem_new_successes.mpr ⟨b, a, hb, ha, h3.symm, h4.symm, h6, h5, ?_, h7, ?_⟩
    · rw [hmsid]; exact Option.some_ne_none msid
    · rw [← h3]; exact htc
  · intro hmem
    obtain ⟨a, b, ha, hb, h3, h4, h5, h6, h7, h8, htc⟩ := mem_new_successes.mp hmem
    cases hmsid : a.error_message_sid with
    | none => exact absurd hmsid h7
    | some msid =>
      obtain ⟨msg, hmsg⟩ := wf_row_message (hwf a ha) hmsid
      refine ⟨(tc, msg), mem_new_failures.mpr
        ⟨b, a, hb, ha, h3.symm, h4.symm, h6, h5, h8, ?_, msid, hmsid, hmsg⟩, rfl⟩
      rw [← h3]; exact htc

/-- C7: over a well-formed store, `diff(A, B)` returns as `newFailures`
exactly the (test-case, strictness) matched pairs passing under A (null
`error_message_sid`) and failing under B, each entry carrying B's failure
message, ordered by test-case path ascending; `newFixes` is the symmetric
list (failed under A, passed under B, same ordering, no message); and
swapping the two revisions swaps the two lists, up to the attached
message. -/
theorem diff_query_characterization (db : DB) (va vb : String) (hwf : WF db) :
    (∀ tc msg, (tc, msg) ∈ new_failures db va vb ↔
      ∃ a b, a ∈ db.runs ∧ b ∈ db.runs ∧ a.testcase_sid = b.testcase_sid ∧
        a.use_strict = b.use_strict ∧ a.version = va ∧ b.version = vb ∧
        a.error_message_sid = none ∧
        lookup_string db.strings a.testcase_sid = some tc ∧
        ∃ msid, b.error_message_sid = some msid ∧
          lookup_string db.strings msid = some msg) ∧
    (∀ tc, tc ∈ new_successes db va vb ↔
      ∃ a b, a ∈ db.runs ∧ b ∈ db.runs ∧ a.testcase_sid = b.testcase_sid ∧
        a.use_strict = b.use_strict ∧ a.version = va ∧ b.version = vb ∧
        a.error_message_sid ≠ none ∧ b.error_message_sid = none ∧
        lookup_string db.strings a.testcase_sid = some tc) ∧
    List.Pairwise (fun x y : String × String => x.1 ≤ y.1)
      (new_failures db va vb) ∧
    List.Pairwise (fun x y : String => x ≤ y) (new_successes db va vb) ∧
    (∀ tc, tc ∈ (new_failures db va vb).map Prod.fst ↔
      tc ∈ new_successes db vb va) ∧
    (∀ tc, tc ∈ new_successes db va vb ↔
      tc ∈ (new_failures db vb va).map Prod.fst) :=
  ⟨fun _ _ => mem_new_failures, fun _ => mem_new_successes,
    sorted_new_failures db va vb, sorted_new_successes db va vb,
    fun tc => swap_failures_fixes db va vb hwf tc,
    fun tc => (swap_failures_fixes db vb va hwf tc).symm⟩

/-- Witness for C7: in the sample store, `diff(r1, r2)` reports the strict
regression of `x/y.js` with revision r2's message attached, and no fix. -/
theorem diff_query_characterization_witness :
    ("x/y.js", "TypeError: x") ∈ new_failures diff_sample_db "r1" "r2" := by
  have h := diff_query_characterization diff_sample_db "r1" "r2"
    (by unfold WF; decide)
  exact (h.1 "x/y.js" "TypeError: x").mpr
    ⟨⟨2, none, none, true, "r1"⟩, ⟨2, some "runtime error", some 3, true, "r2"⟩,
      by decide, by decide, rfl, rfl, rfl, rfl, rfl, rfl, 3, rfl, rfl⟩

end Trag
